import Mathlib

/-
Verification of the key-star typing trainer core (src App component).
The keystroke state machine, floor statistics, run lifecycle and mode
registry are embedded as executable Lean definitions translated from
the TypeScript source; theorems below settle the specified properties.
-/

namespace KeyStar

/-- Error handling policy of a typing mode (ErrorHandlingMode in the source). -/
inductive ErrorHandlingMode where
  | forgiving
  | perfectionist
deriving DecidableEq, Repr

/-- A raw keyboard event, abstracted from event.key: a printable single
character (space included), the Backspace key, or any other named key
(whose event.key string has length greater than 1 and is not a space). -/
inductive Key where
  | char (c : Char)
  | backspace
  | other
deriving DecidableEq, Repr

/-- The per-floor typing state mutated by handleKeyPress: the React states
currentCharIndex, hasError, typedCharacters, firstErrorPosition together
with the current floor's two keystroke counters. -/
structure ProcState where
  currentCharIndex : Nat
  hasError : Bool
  typedCharacters : List Char
  firstErrorPosition : Option Nat
  correctCharacters : Nat
  incorrectCharacters : Nat
deriving DecidableEq, Repr

/-- The state installed for a fresh floor: index 0, no error, empty typed
text, no first error position, zeroed counters. -/
def initProcState : ProcState :=
  { currentCharIndex := 0
    hasError := false
    typedCharacters := []
    firstErrorPosition := none
    correctCharacters := 0
    incorrectCharacters := 0 }

/-- One keystroke of handleKeyPress (source lines 549 to 644), as a pure
transition on ProcState; the returned Bool signals floor completion (the
call to completeCurrentFloor).  Backspace is handled only in perfectionist
mode; in forgiving mode the event string Backspace has length 9 and falls
into the non-printable ignore branch.  In forgiving mode the React
typedCharacters state is never written, so it stays unchanged here. -/
def handleKeyPress (mode : ErrorHandlingMode) (text : List Char) (s : ProcState)
    (k : Key) : ProcState × Bool :=
  match k with
  | Key.backspace =>
    if mode = ErrorHandlingMode.perfectionist then
      if 0 < s.typedCharacters.length then
        let newTyped := s.typedCharacters.dropLast
        let s1 := { s with typedCharacters := newTyped, currentCharIndex := newTyped.length }
        match s.firstErrorPosition with
        | some p =>
          if newTyped.length ≤ p then
            ({ s1 with firstErrorPosition := none, hasError := false }, false)
          else (s1, false)
        | none => (s1, false)
      else (s, false)
    else (s, false)
  | Key.other => (s, false)
  | Key.char c =>
    match mode with
    | ErrorHandlingMode.forgiving =>
      if text.get? s.currentCharIndex = some c then
        if s.currentCharIndex = text.length - 1 then
          ({ s with hasError := false, correctCharacters := s.correctCharacters + 1 }, true)
        else
          ({ s with hasError := false, correctCharacters := s.correctCharacters + 1,
                    currentCharIndex := s.currentCharIndex + 1 }, false)
      else
        ({ s with hasError := true, incorrectCharacters := s.incorrectCharacters + 1 }, false)
    | ErrorHandlingMode.perfectionist =>
      let newTyped := s.typedCharacters ++ [c]
      let correctPosition := s.firstErrorPosition.getD s.typedCharacters.length
      if s.firstErrorPosition = none ∧ text.get? correctPosition = some c then
        let s1 := { s with typedCharacters := newTyped, currentCharIndex := newTyped.length,
                           correctCharacters := s.correctCharacters + 1 }
        if newTyped = text then (s1, true) else (s1, false)
      else
        let s1 := { s with typedCharacters := newTyped, currentCharIndex := newTyped.length }
        let s2 :=
          if s.firstErrorPosition = none then
            { s1 with firstErrorPosition := some s.typedCharacters.length, hasError := true }
          else s1
        ({ s2 with incorrectCharacters := s2.incorrectCharacters + 1 }, false)

/-- Thread a list of keystrokes through handleKeyPress within one floor;
the Bool is the completion signal of the last keystroke processed.  The
caller is responsible for reinitializing state after a completion, so the
sequences fed to this function stay within a single floor. -/
def runKeys (mode : ErrorHandlingMode) (text : List Char) :
    ProcState → List Key → ProcState × Bool
  | s, [] => (s, false)
  | s, [k] => handleKeyPress mode text s k
  | s, k :: ks => runKeys mode text (handleKeyPress mode text s k).1 ks

/-- The JavaScript string split on a single space character: every space
separates two segments, and empty segments are kept, so the empty text
yields one empty segment and consecutive spaces yield empty segments. -/
def splitOnSpace : List Char → List (List Char)
  | [] => [[]]
  | c :: rest =>
    match splitOnSpace rest with
    | [] => [[]]
    | w :: ws => if c = ' ' then [] :: w :: ws else (c :: w) :: ws

/-- The word count used by completeCurrentFloor (source line 329):
the length of text.split with a single space separator. -/
def wordCountJS (text : List Char) : Nat := (splitOnSpace text).length

/-- Modelled from the spec: the count of whitespace-delimited tokens of a
text, that is, the number of maximal runs of non-whitespace characters. -/
def tokenCount (text : List Char) : Nat :=
  (text.foldl
    (fun st c =>
      if c.isWhitespace then (st.1, false)
      else if st.2 then st else (st.1 + 1, true))
    ((0, false) : Nat × Bool)).1

/-- Per-floor accuracy at completion (source lines 331 to 333). -/
def floorAccuracy (correct incorrect : Nat) : ℚ :=
  if 0 < correct + incorrect then
    ((correct : ℚ) / ((correct : ℚ) + (incorrect : ℚ))) * 100
  else 0

/-- Per-floor words per minute at completion (source line 330), from the
floor text and the duration in seconds. -/
def floorWpm (text : List Char) (durationSeconds : ℚ) : ℚ :=
  if 0 < durationSeconds then (wordCountJS text : ℚ) / (durationSeconds / 60) else 0

/-- A floor as retained in Run.floors after completion: its text, raw
keystroke counters and the two derived statistics. -/
structure CompletedFloor where
  text : List Char
  correctCharacters : Nat
  incorrectCharacters : Nat
  accuracy : ℚ
  wpm : ℚ
deriving DecidableEq, Repr

/-- Run continuation policy (RunType in the source). -/
inductive RunType where
  | timeBased
  | floorCount
  | endless
deriving DecidableEq, Repr

/-- The Run record; timestamps are rational numbers of milliseconds and
the optional runTarget is the raw number from the mode settings (minutes
for time-based runs, a floor count for floor-count runs). -/
structure Run where
  runType : RunType
  runTarget : Option ℚ
  startTime : ℚ
  endTime : Option ℚ
  floorsCompleted : Nat
  totalCharacters : Nat
  totalCorrectCharacters : Nat
  totalIncorrectCharacters : Nat
  averageAccuracy : ℚ
  averageWPM : ℚ
  isActive : Bool
  floors : List CompletedFloor
deriving DecidableEq, Repr

/-- The run built by startNewRun: zeroed totals, active, no end time,
no completed floors. -/
def newRun (runType : RunType) (runTarget : Option ℚ) (startTime : ℚ) : Run :=
  { runType := runType
    runTarget := runTarget
    startTime := startTime
    endTime := none
    floorsCompleted := 0
    totalCharacters := 0
    totalCorrectCharacters := 0
    totalIncorrectCharacters := 0
    averageAccuracy := 0
    averageWPM := 0
    isActive := true
    floors := [] }

/-- The statistics part of completeCurrentFloor (source lines 319 to 349):
stamp the floor, compute its duration, wpm and accuracy, append it to the
run, bump the cumulative totals and recompute the two run averages.  The
floor is given by its text, start time and keystroke counters; now is the
wall clock reading taken at the top of completeCurrentFloor. -/
def foldFloor (run : Run) (text : List Char) (startTime : ℚ)
    (correct incorrect : Nat) (now : ℚ) : Run :=
  let duration := (now - startTime) / 1000
  let f : CompletedFloor :=
    { text := text
      correctCharacters := correct
      incorrectCharacters := incorrect
      accuracy := floorAccuracy correct incorrect
      wpm := floorWpm text duration }
  let floors1 := run.floors ++ [f]
  let totalCorrect1 := run.totalCorrectCharacters + correct
  let totalIncorrect1 := run.totalIncorrectCharacters + incorrect
  { run with
    floors := floors1
    floorsCompleted := run.floorsCompleted + 1
    totalCharacters := run.totalCharacters + text.length
    totalCorrectCharacters := totalCorrect1
    totalIncorrectCharacters := totalIncorrect1
    averageAccuracy :=
      if 0 < totalCorrect1 + totalIncorrect1 then
        ((totalCorrect1 : ℚ) / ((totalCorrect1 : ℚ) + (totalIncorrect1 : ℚ))) * 100
      else 0
    averageWPM := (floors1.map CompletedFloor.wpm).sum / (floors1.length : ℚ) }

/-- The continuation predicate (source lines 284 to 297); now is the
Date.now reading taken inside the time-based branch, and a missing
runTarget defaults to 0 through the JavaScript or-with-zero. -/
def shouldContinueRun (run : Run) (now : ℚ) : Bool :=
  match run.runType with
  | RunType.timeBased =>
    decide ((now - run.startTime) / (1000 * 60) < run.runTarget.getD 0)
  | RunType.floorCount =>
    decide ((run.floorsCompleted : ℚ) < run.runTarget.getD 0)
  | RunType.endless => true

/-- A whole floor-completion event (source lines 316 to 369): fold the
floor into the run, then either continue (the next floor is generated,
which does not change the Run record) or stamp the run end time and
deactivate it as completeCurrentRun does.  The three timestamps are the
successive wall clock readings the handler takes: at the top of
completeCurrentFloor, inside shouldContinueRun, and in completeCurrentRun. -/
def onFloorComplete (run : Run) (text : List Char) (startTime : ℚ)
    (correct incorrect : Nat) (now nowCheck nowEnd : ℚ) : Run :=
  let updated := foldFloor run text startTime correct incorrect now
  if shouldContinueRun updated nowCheck then updated
  else { updated with endTime := some nowEnd, isActive := false }

/-- Sum of the correct keystroke counters over a list of floors. -/
def sumCorrect (fs : List CompletedFloor) : Nat :=
  (fs.map CompletedFloor.correctCharacters).sum

/-- Sum of the incorrect keystroke counters over a list of floors. -/
def sumIncorrect (fs : List CompletedFloor) : Nat :=
  (fs.map CompletedFloor.incorrectCharacters).sum

/-- Unweighted arithmetic mean of a list of rationals. -/
def meanQ (l : List ℚ) : ℚ := l.sum / (l.length : ℚ)

/-- The dictionary used by the random-words generator (COMMON_WORDS in the
source), transcribed in order. -/
def COMMON_WORDS : List String :=
  ["the", "and", "for", "are", "but", "not", "you", "all", "can", "had",
   "her", "was", "one", "our", "out", "day", "get", "has", "him", "his",
   "how", "man", "new", "now", "old", "see", "two", "who", "boy", "did",
   "its", "let", "put", "say", "she", "too", "use",
   "about", "after", "again", "back", "because", "before", "being",
   "between", "both", "came", "come", "could", "each", "from", "give",
   "good", "have", "here", "into", "just", "know", "like", "long", "look",
   "made", "make", "many", "most", "much", "only", "over", "said", "some",
   "take", "than", "that", "their", "them", "time", "very", "want",
   "water", "way", "well", "were", "what", "when", "where", "which",
   "will", "with", "work", "would", "your",
   "around", "before", "change", "different", "does", "every", "follow",
   "great", "house", "large", "learn", "letter", "little", "might",
   "move", "never", "number", "other", "people", "place", "picture",
   "point", "right", "small", "sound", "spell", "still", "study",
   "think", "those", "through", "under", "world", "write", "years"]

/-- The punctuation marks the random-words generator may append. -/
def PUNCTUATION : List String := [".", ",", "!", "?", ";", ":"]

/-- The dictionary filtered to the configured word length range, inclusive
on both ends (RandomWordsGenerator.generateFloor, source lines 83 to 85). -/
def filteredWords (minLength maxLength : Nat) : List String :=
  COMMON_WORDS.filter (fun w => minLength ≤ w.length && w.length ≤ maxLength)

/-- One word drawn by RandomWordsGenerator.generateFloor.  The pick is the
index Math.floor of a random scaled by the list length; when the filtered
list is empty that index is 0 and the JavaScript access yields undefined,
which Array.join later renders as the empty string, modelled here by the
empty-string default.  numRepl models the branch that replaces the word
with a random integer literal when includeNumbers is set, and punctPick
the branch that appends one punctuation mark when includePunctuation is
set; a none means the corresponding random test did not fire. -/
def genWord (ws : List String) (pick : Nat) (includeNumbers includePunctuation : Bool)
    (numRepl : Option Nat) (punctPick : Option (Fin 6)) : String :=
  let w := (ws.get? pick).getD ""
  let w :=
    if includeNumbers then
      match numRepl with
      | some n => toString n
      | none => w
    else w
  if includePunctuation then
    match punctPick with
    | some j => w ++ (PUNCTUATION.get? j.val).getD ""
    | none => w
  else w

/-- The text of the floor produced by RandomWordsGenerator.generateFloor
(source lines 74 to 117): wordCount draws from the filtered dictionary,
joined by single spaces.  The function is total: no settings are rejected,
and an empty filtered dictionary still yields a floor text. -/
def generateFloorRWText (wordCount minLength maxLength : Nat)
    (includeNumbers includePunctuation : Bool) (picks : Nat → Nat)
    (numRepl : Nat → Option Nat) (punctPick : Nat → Option (Fin 6)) : String :=
  let ws := filteredWords minLength maxLength
  String.intercalate " "
    ((List.range wordCount).map
      (fun i => genWord ws (picks i) includeNumbers includePunctuation (numRepl i) (punctPick i)))

/-- The JavaScript string trim over a character list: drop whitespace on
both ends. -/
def trimChars (l : List Char) : List Char :=
  ((l.dropWhile Char.isWhitespace).reverse.dropWhile Char.isWhitespace).reverse

/-- The JavaScript toLowerCase over a character list. -/
def toLowerChars (l : List Char) : List Char := l.map Char.toLower

/-- A typing mode as the registry sees it: its identifier, display name
as a character list, and whether it is one of the two built-in modes. -/
structure Mode where
  id : Nat
  name : List Char
  isDefault : Bool
deriving DecidableEq, Repr

/-- The name of the built-in Forgiving Mode. -/
def forgivingModeName : List Char :=
  ['F', 'o', 'r', 'g', 'i', 'v', 'i', 'n', 'g', ' ', 'M', 'o', 'd', 'e']

/-- The name of the built-in Perfectionist Mode. -/
def perfectionistModeName : List Char :=
  ['P', 'e', 'r', 'f', 'e', 'c', 't', 'i', 'o', 'n', 'i', 's', 't', ' ', 'M', 'o', 'd', 'e']

/-- The Copy suffix duplicateMode appends to the source mode's name. -/
def copySuffix : List Char := [' ', '(', 'C', 'o', 'p', 'y', ')']

/-- The two built-in modes (DEFAULT_MODES in the source), reduced to the
fields the registry logic reads. -/
def DEFAULT_MODES : List Mode :=
  [{ id := 0, name := forgivingModeName, isDefault := true },
   { id := 1, name := perfectionistModeName, isDefault := true }]

/-- The combined set of built-in and custom modes (allModes in the source). -/
def allModes (customModes : List Mode) : List Mode := DEFAULT_MODES ++ customModes

/-- createMode (source lines 429 to 440): trim the name, append a fresh
mode to the custom list, no validation of any kind.  The fresh identifier
stands for the timestamp-and-random id string the source builds. -/
def createMode (customModes : List Mode) (freshId : Nat) (name : List Char) :
    List Mode × Mode :=
  let m : Mode := { id := freshId, name := trimChars name, isDefault := false }
  (customModes ++ [m], m)

/-- duplicateMode (source lines 465 to 468): createMode on the source
mode's name with the Copy suffix; no duplicate-name check on this path. -/
def duplicateMode (customModes : List Mode) (freshId : Nat) (mode : Mode) :
    List Mode × Mode :=
  createMode customModes freshId (mode.name ++ copySuffix)

/-- The duplicate-name test of handleSubmit (source lines 803 to 806):
some mode in the combined set has the same lowercased name and is not the
mode currently being edited. -/
def isDuplicateName (customModes : List Mode) (editingId : Option Nat)
    (trimmedName : List Char) : Bool :=
  (allModes customModes).any
    (fun m => toLowerChars m.name == toLowerChars trimmedName && some m.id != editingId)

/-- The mode-creation path of handleSubmit (source lines 793 to 848, with
isCreating set): reject an empty trimmed name, reject a case-insensitive
duplicate (editingMode is null, so no id is excluded), else create the
mode.  none models the early return behind the alert. -/
def handleSubmitCreate (customModes : List Mode) (freshId : Nat) (name : List Char) :
    Option (List Mode) :=
  let trimmedName := trimChars name
  if trimmedName = [] then none
  else if isDuplicateName customModes none trimmedName then none
  else some (createMode customModes freshId trimmedName).1

/-- updateMode (source lines 442 to 447): rewrite the custom mode with the
matching id, here restricted to the name field the registry logic reads. -/
def updateMode (customModes : List Mode) (modeId : Nat) (newName : List Char) :
    List Mode :=
  customModes.map (fun m => if m.id = modeId then { m with name := newName } else m)

/-- The mode-edit path of handleSubmit (source lines 793 to 848, with
editingMode set): reject an empty trimmed name, reject a trimmed name
that duplicates, case-insensitively, the name of any mode other than the
one being edited (the check excludes editingMode's own id), else apply
updateMode.  none models the early return behind the alert. -/
def handleSubmitEdit (customModes : List Mode) (editingId : Nat) (name : List Char) :
    Option (List Mode) :=
  let trimmedName := trimChars name
  if trimmedName = [] then none
  else if isDuplicateName customModes (some editingId) trimmedName then none
  else some (updateMode customModes editingId trimmedName)

/-- The floor text cat used in the concrete scenarios. -/
def catText : List Char := ['c', 'a', 't']

/-- The perfectionist state reached on catText after typing c, a, x. -/
def stateCAX : ProcState :=
  (runKeys ErrorHandlingMode.perfectionist catText initProcState
    [Key.char 'c', Key.char 'a', Key.char 'x']).1

/-- A concrete run folding two floors whose wpm values are 60 and 0: the
first takes one second over a one-word text, the second zero seconds. -/
def run60and0 : Run :=
  foldFloor
    (foldFloor (newRun RunType.endless none 0) ['w', 'o', 'r', 'd'] 0 4 0 1000)
    ['w', 'o', 'r', 'd'] 1000 4 0 1000

lemma sumCorrect_append (fs : List CompletedFloor) (f : CompletedFloor) :
    sumCorrect (fs ++ [f]) = sumCorrect fs + f.correctCharacters := by
  simp [sumCorrect]

lemma sumIncorrect_append (fs : List CompletedFloor) (f : CompletedFloor) :
    sumIncorrect (fs ++ [f]) = sumIncorrect fs + f.incorrectCharacters := by
  simp [sumIncorrect]

lemma splitOnSpace_ne_nil (l : List Char) : splitOnSpace l ≠ [] := by
  cases l with
  | nil => simp [splitOnSpace]
  | cons c rest =>
    unfold splitOnSpace
    cases h : splitOnSpace rest with
    | nil => simp
    | cons w ws =>
      by_cases hc : c = ' ' <;> simp [hc]

/-- The JavaScript split on a single space yields one segment more than
the number of space characters in the text. -/
lemma wordCountJS_eq_count_space (l : List Char) :
    wordCountJS l = l.count ' ' + 1 := by
  unfold wordCountJS
  induction l with
  | nil => simp [splitOnSpace]
  | cons c rest ih =>
    unfold splitOnSpace
    cases h : splitOnSpace rest with
    | nil => exact absurd h (splitOnSpace_ne_nil rest)
    | cons w ws =>
      rw [h] at ih
      by_cases hc : c = ' '
      · subst hc
        simp [List.count_cons_self]
        simp only [List.length_cons] at ih
        omega
      · simp [hc, List.count_cons_of_ne (Ne.symm hc)]
        simp only [List.length_cons] at ih
        omega

/-- C7: for every completed floor, accuracy lies in [0,100] and equals
correct/(correct+incorrect)*100, or 0 when both counts are 0; accuracy and
wpm are always finite rationals, defaulting to 0 whenever their denominator
is 0 (no keystrokes or nonpositive elapsed time), and the floor appended by
a completion event carries exactly these statistics. -/
theorem spec_C7_accuracy_bounds (c i : Nat) (text : List Char) (d : ℚ)
    (run : Run) (st now : ℚ) (hd : d ≤ 0) :
    0 ≤ floorAccuracy c i ∧ floorAccuracy c i ≤ 100 ∧
    floorAccuracy c i =
      (if 0 < c + i then ((c : ℚ) / ((c : ℚ) + (i : ℚ))) * 100 else 0) ∧
    floorAccuracy 0 0 = 0 ∧
    floorWpm text d = 0 ∧
    ((foldFloor run text st c i now).floors.map CompletedFloor.accuracy).getLast?
      = some (floorAccuracy c i) ∧
    ((foldFloor run text st c i now).floors.map CompletedFloor.wpm).getLast?
      = some (floorWpm text ((now - st) / 1000)) := by
  refine ⟨?_, ?_, rfl, by simp [floorAccuracy], ?_, ?_, ?_⟩
  · unfold floorAccuracy
    split
    · positivity
    · exact le_refl 0
  · unfold floorAccuracy
    split
    · rename_i h
      have hpos : (0 : ℚ) < (c : ℚ) + (i : ℚ) := by exact_mod_cast h
      have h1 : (c : ℚ) / ((c : ℚ) + (i : ℚ)) ≤ 1 :=
        (div_le_one hpos).mpr (le_add_of_nonneg_right (by positivity))
      nlinarith
    · norm_num
  · unfold floorWpm
    rw [if_neg (not_lt.mpr hd)]
  · simp [foldFloor]
  · simp [foldFloor]

/-- Witness for C7 at correct 3, incorrect 1, the cat text, duration 0. -/
theorem spec_C7_witness :
    0 ≤ floorAccuracy 3 1 ∧ floorAccuracy 3 1 ≤ 100 ∧
    floorAccuracy 3 1 =
      (if 0 < 3 + 1 then (((3 : ℕ) : ℚ) / (((3 : ℕ) : ℚ) + ((1 : ℕ) : ℚ))) * 100 else 0) ∧
    floorAccuracy 0 0 = 0 ∧
    floorWpm catText 0 = 0 ∧
    ((foldFloor (newRun RunType.endless none 0) catText 0 3 1 1000).floors.map
        CompletedFloor.accuracy).getLast? = some (floorAccuracy 3 1) ∧
    ((foldFloor (newRun RunType.endless none 0) catText 0 3 1 1000).floors.map
        CompletedFloor.wpm).getLast? = some (floorWpm catText ((1000 - 0) / 1000)) :=
  spec_C7_accuracy_bounds 3 1 catText 0 (newRun RunType.endless none 0) 0 1000 (le_refl 0)

/-- C2: after a floor folds into the run, averageAccuracy is the
character-count-weighted quotient over all completed floors (0 when the
denominator is 0) while averageWPM is the unweighted arithmetic mean of
the floors' own wpm values; in particular a run with floor wpm values 60
and 0 has averageWPM 30. -/
theorem spec_C2_run_averages (run : Run) (text : List Char) (st now : ℚ) (ct ic : Nat)
    (hc : run.totalCorrectCharacters = sumCorrect run.floors)
    (hi : run.totalIncorrectCharacters = sumIncorrect run.floors) :
    (foldFloor run text st ct ic now).totalCorrectCharacters =
      sumCorrect (foldFloor run text st ct ic now).floors ∧
    (foldFloor run text st ct ic now).totalIncorrectCharacters =
      sumIncorrect (foldFloor run text st ct ic now).floors ∧
    (foldFloor run text st ct ic now).averageAccuracy =
      (if 0 < sumCorrect (foldFloor run text st ct ic now).floors +
            sumIncorrect (foldFloor run text st ct ic now).floors then
        ((sumCorrect (foldFloor run text st ct ic now).floors : ℚ) /
            ((sumCorrect (foldFloor run text st ct ic now).floors : ℚ) +
              (sumIncorrect (foldFloor run text st ct ic now).floors : ℚ))) * 100
      else 0) ∧
    (foldFloor run text st ct ic now).averageWPM =
      meanQ ((foldFloor run text st ct ic now).floors.map CompletedFloor.wpm) ∧
    run60and0.floors.map CompletedFloor.wpm = [60, 0] ∧
    run60and0.averageWPM = 30 := by
  have hw : wordCountJS ['w', 'o', 'r', 'd'] = 1 := by decide
  refine ⟨?_, ?_, ?_, ?_,
    by norm_num [run60and0, foldFloor, newRun, floorWpm, floorAccuracy, hw],
    by norm_num [run60and0, foldFloor, newRun, floorWpm, floorAccuracy, hw, meanQ]⟩
  · simp [foldFloor, sumCorrect_append, hc]
  · simp [foldFloor, sumIncorrect_append, hi]
  · simp [foldFloor, sumCorrect_append, sumIncorrect_append, hc, hi]
  · simp [foldFloor, meanQ]

/-- Witness for C2 on a fresh endless run, whose totals are both 0. -/
theorem spec_C2_witness :
    (foldFloor (newRun RunType.endless none 0) catText 0 3 1 1000).totalCorrectCharacters =
      sumCorrect (foldFloor (newRun RunType.endless none 0) catText 0 3 1 1000).floors ∧
    (foldFloor (newRun RunType.endless none 0) catText 0 3 1 1000).totalIncorrectCharacters =
      sumIncorrect (foldFloor (newRun RunType.endless none 0) catText 0 3 1 1000).floors ∧
    (foldFloor (newRun RunType.endless none 0) catText 0 3 1 1000).averageAccuracy =
      (if 0 < sumCorrect (foldFloor (newRun RunType.endless none 0) catText 0 3 1 1000).floors +
            sumIncorrect (foldFloor (newRun RunType.endless none 0) catText 0 3 1 1000).floors then
        ((sumCorrect (foldFloor (newRun RunType.endless none 0) catText 0 3 1 1000).floors : ℚ) /
            ((sumCorrect (foldFloor (newRun RunType.endless none 0) catText 0 3 1 1000).floors : ℚ) +
              (sumIncorrect (foldFloor (newRun RunType.endless none 0) catText 0 3 1 1000).floors : ℚ))) *
          100
      else 0) ∧
    (foldFloor (newRun RunType.endless none 0) catText 0 3 1 1000).averageWPM =
      meanQ ((foldFloor (newRun RunType.endless none 0) catText 0 3 1 1000).floors.map
        CompletedFloor.wpm) ∧
    run60and0.floors.map CompletedFloor.wpm = [60, 0] ∧
    run60and0.averageWPM = 30 :=
  spec_C2_run_averages (newRun RunType.endless none 0) catText 0 1000 3 1 rfl rfl

@[simp] lemma foldFloor_runType (run : Run) (text : List Char) (st : ℚ)
    (c i : Nat) (now : ℚ) :
    (foldFloor run text st c i now).runType = run.runType := rfl

@[simp] lemma foldFloor_runTarget (run : Run) (text : List Char) (st : ℚ)
    (c i : Nat) (now : ℚ) :
    (foldFloor run text st c i now).runTarget = run.runTarget := rfl

@[simp] lemma foldFloor_startTime (run : Run) (text : List Char) (st : ℚ)
    (c i : Nat) (now : ℚ) :
    (foldFloor run text st c i now).startTime = run.startTime := rfl

@[simp] lemma foldFloor_endTime (run : Run) (text : List Char) (st : ℚ)
    (c i : Nat) (now : ℚ) :
    (foldFloor run text st c i now).endTime = run.endTime := rfl

@[simp] lemma foldFloor_isActive (run : Run) (text : List Char) (st : ℚ)
    (c i : Nat) (now : ℚ) :
    (foldFloor run text st c i now).isActive = run.isActive := rfl

@[simp] lemma foldFloor_floorsCompleted (run : Run) (text : List Char) (st : ℚ)
    (c i : Nat) (now : ℚ) :
    (foldFloor run text st c i now).floorsCompleted = run.floorsCompleted + 1 := rfl

lemma shouldContinueRun_floorCount (r : Run) (t : ℚ)
    (h : r.runType = RunType.floorCount) :
    shouldContinueRun r t = decide ((r.floorsCompleted : ℚ) < r.runTarget.getD 0) := by
  unfold shouldContinueRun
  rw [h]

lemma shouldContinueRun_timeBased (r : Run) (t : ℚ)
    (h : r.runType = RunType.timeBased) :
    shouldContinueRun r t =
      decide ((t - r.startTime) / (1000 * 60) < r.runTarget.getD 0) := by
  unfold shouldContinueRun
  rw [h]

lemma onFloorComplete_continue (run : Run) (text : List Char) (st : ℚ)
    (c i : Nat) (now nowCheck nowEnd : ℚ)
    (h : shouldContinueRun (foldFloor run text st c i now) nowCheck = true) :
    onFloorComplete run text st c i now nowCheck nowEnd =
      foldFloor run text st c i now := by
  unfold onFloorComplete
  rw [if_pos h]

lemma onFloorComplete_stop (run : Run) (text : List Char) (st : ℚ)
    (c i : Nat) (now nowCheck nowEnd : ℚ)
    (h : shouldContinueRun (foldFloor run text st c i now) nowCheck = false) :
    onFloorComplete run text st c i now nowCheck nowEnd =
      { foldFloor run text st c i now with endTime := some nowEnd, isActive := false } := by
  unfold onFloorComplete
  rw [if_neg (by simp [h])]

/-- C3: for a FloorCount run the continuation predicate is true exactly
while floorsCompleted is below runTarget; a run with runTarget 2 stays
active with no end time after the first floor-completion event and
transitions to Completed (isActive false, endTime stamped) precisely at
the second one, with floorsCompleted 2 at that point. -/
theorem spec_C3_floorcount_target
    (run : Run) (now : ℚ) (hrt : run.runType = RunType.floorCount)
    (r0 : Run) (h0 : r0.runType = RunType.floorCount) (h1 : r0.runTarget = some 2)
    (h2 : r0.floorsCompleted = 0) (h3 : r0.endTime = none)
    (t1 t2 : List Char) (c1 i1 c2 i2 : Nat) (s1 n1 n1c n1e s2 n2 n2c n2e : ℚ) :
    (shouldContinueRun run now = true ↔
      (run.floorsCompleted : ℚ) < run.runTarget.getD 0) ∧
    (onFloorComplete r0 t1 s1 c1 i1 n1 n1c n1e).isActive = r0.isActive ∧
    (onFloorComplete r0 t1 s1 c1 i1 n1 n1c n1e).endTime = none ∧
    (onFloorComplete r0 t1 s1 c1 i1 n1 n1c n1e).floorsCompleted = 1 ∧
    (onFloorComplete (onFloorComplete r0 t1 s1 c1 i1 n1 n1c n1e)
        t2 s2 c2 i2 n2 n2c n2e).isActive = false ∧
    (onFloorComplete (onFloorComplete r0 t1 s1 c1 i1 n1 n1c n1e)
        t2 s2 c2 i2 n2 n2c n2e).endTime = some n2e ∧
    (onFloorComplete (onFloorComplete r0 t1 s1 c1 i1 n1 n1c n1e)
        t2 s2 c2 i2 n2 n2c n2e).floorsCompleted = 2 := by
  have hiff : shouldContinueRun run now = true ↔
      (run.floorsCompleted : ℚ) < run.runTarget.getD 0 := by
    rw [shouldContinueRun_floorCount run now hrt]
    exact decide_eq_true_iff
  have hcont : shouldContinueRun (foldFloor r0 t1 s1 c1 i1 n1) n1c = true := by
    rw [shouldContinueRun_floorCount _ _ (by simp [h0])]
    simp [h1, h2]
  have e1 : onFloorComplete r0 t1 s1 c1 i1 n1 n1c n1e =
      foldFloor r0 t1 s1 c1 i1 n1 :=
    onFloorComplete_continue r0 t1 s1 c1 i1 n1 n1c n1e hcont
  have hstop : shouldContinueRun
      (foldFloor (foldFloor r0 t1 s1 c1 i1 n1) t2 s2 c2 i2 n2) n2c = false := by
    rw [shouldContinueRun_floorCount _ _ (by simp [h0])]
    simp [h1, h2]
  have e2 : onFloorComplete (foldFloor r0 t1 s1 c1 i1 n1) t2 s2 c2 i2 n2 n2c n2e =
      { foldFloor (foldFloor r0 t1 s1 c1 i1 n1) t2 s2 c2 i2 n2 with
          endTime := some n2e, isActive := false } :=
    onFloorComplete_stop _ t2 s2 c2 i2 n2 n2c n2e hstop
  rw [e1]
  refine ⟨hiff, ?_, ?_, ?_, ?_, ?_, ?_⟩ <;> simp [e2, h2, h3]

/-- Witness for C3 at a fresh FloorCount run with target 2. -/
theorem spec_C3_witness :
    (shouldContinueRun (newRun RunType.floorCount (some 2) 0) 5 = true ↔
      ((newRun RunType.floorCount (some 2) 0).floorsCompleted : ℚ) <
        (newRun RunType.floorCount (some 2) 0).runTarget.getD 0) ∧
    (onFloorComplete (newRun RunType.floorCount (some 2) 0)
        catText 0 3 0 1000 1001 1002).isActive =
      (newRun RunType.floorCount (some 2) 0).isActive ∧
    (onFloorComplete (newRun RunType.floorCount (some 2) 0)
        catText 0 3 0 1000 1001 1002).endTime = none ∧
    (onFloorComplete (newRun RunType.floorCount (some 2) 0)
        catText 0 3 0 1000 1001 1002).floorsCompleted = 1 ∧
    (onFloorComplete (onFloorComplete (newRun RunType.floorCount (some 2) 0)
        catText 0 3 0 1000 1001 1002) catText 1000 3 0 2000 2001 2002).isActive = false ∧
    (onFloorComplete (onFloorComplete (newRun RunType.floorCount (some 2) 0)
        catText 0 3 0 1000 1001 1002) catText 1000 3 0 2000 2001 2002).endTime = some 2002 ∧
    (onFloorComplete (onFloorComplete (newRun RunType.floorCount (some 2) 0)
        catText 0 3 0 1000 1001 1002) catText 1000 3 0 2000 2001 2002).floorsCompleted = 2 :=
  spec_C3_floorcount_target (newRun RunType.floorCount (some 2) 0) 5 rfl
    (newRun RunType.floorCount (some 2) 0) rfl rfl rfl rfl
    catText catText 3 0 3 0 0 1000 1001 1002 1000 2000 2001 2002

/-- C10: when runTarget is absent the continuation predicate treats the
target as 0 and returns false at the first floor-completion evaluation,
both for FloorCount runs and for TimeBased runs whose clock has not run
backwards, so such a run transitions to Completed after exactly one
floor. -/
theorem spec_C10_missing_target
    (run runT : Run) (now nowT : ℚ)
    (h1 : run.runTarget = none) (h2 : run.runType = RunType.floorCount)
    (h3 : runT.runTarget = none) (h4 : runT.runType = RunType.timeBased)
    (h5 : runT.startTime ≤ nowT)
    (r0 : Run) (h6 : r0.runTarget = none) (h7 : r0.runType = RunType.floorCount)
    (h8 : r0.floorsCompleted = 0)
    (rT : Run) (h9 : rT.runTarget = none) (h10 : rT.runType = RunType.timeBased)
    (h11 : rT.floorsCompleted = 0)
    (text : List Char) (c i : Nat) (st n1 n1e : ℚ) (n1c : ℚ)
    (h12 : rT.startTime ≤ n1c) :
    run.runTarget.getD 0 = 0 ∧
    shouldContinueRun run now = false ∧
    shouldContinueRun runT nowT = false ∧
    (onFloorComplete r0 text st c i n1 n1c n1e).isActive = false ∧
    (onFloorComplete r0 text st c i n1 n1c n1e).endTime = some n1e ∧
    (onFloorComplete r0 text st c i n1 n1c n1e).floorsCompleted = 1 ∧
    (onFloorComplete rT text st c i n1 n1c n1e).isActive = false ∧
    (onFloorComplete rT text st c i n1 n1c n1e).endTime = some n1e ∧
    (onFloorComplete rT text st c i n1 n1c n1e).floorsCompleted = 1 := by
  have hfc : ∀ r : Run, r.runTarget = none → r.runType = RunType.floorCount →
      ∀ t : ℚ, shouldContinueRun r t = false := by
    intro r hr hty t
    rw [shouldContinueRun_floorCount r t hty]
    simp [hr]
  have htb : ∀ r : Run, r.runTarget = none → r.runType = RunType.timeBased →
      ∀ t : ℚ, r.startTime ≤ t → shouldContinueRun r t = false := by
    intro r hr hty t hle
    rw [shouldContinueRun_timeBased r t hty]
    simp only [hr, Option.getD_none, decide_eq_false_iff_not, not_lt]
    exact div_nonneg (sub_nonneg.mpr hle) (by norm_num)
  have hstop0 : shouldContinueRun (foldFloor r0 text st c i n1) n1c = false := by
    apply hfc <;> simp [h6, h7]
  have hstopT : shouldContinueRun (foldFloor rT text st c i n1) n1c = false := by
    apply htb <;> simp [h9, h10, h12]
  have e0 : onFloorComplete r0 text st c i n1 n1c n1e =
      { foldFloor r0 text st c i n1 with endTime := some n1e, isActive := false } :=
    onFloorComplete_stop r0 text st c i n1 n1c n1e hstop0
  have eT : onFloorComplete rT text st c i n1 n1c n1e =
      { foldFloor rT text st c i n1 with endTime := some n1e, isActive := false } :=
    onFloorComplete_stop rT text st c i n1 n1c n1e hstopT
  refine ⟨by simp [h1], hfc run h1 h2 now, htb runT h3 h4 nowT h5,
    ?_, ?_, ?_, ?_, ?_, ?_⟩ <;> simp [e0, eT, h8, h11]

/-- Witness for C10 at fresh runs with no target. -/
theorem spec_C10_witness :
    (newRun RunType.floorCount none 0).runTarget.getD 0 = 0 ∧
    shouldContinueRun (newRun RunType.floorCount none 0) 5 = false ∧
    shouldContinueRun (newRun RunType.timeBased none 0) 5 = false ∧
    (onFloorComplete (newRun RunType.floorCount none 0)
        catText 0 3 0 1000 1001 1002).isActive = false ∧
    (onFloorComplete (newRun RunType.floorCount none 0)
        catText 0 3 0 1000 1001 1002).endTime = some 1002 ∧
    (onFloorComplete (newRun RunType.floorCount none 0)
        catText 0 3 0 1000 1001 1002).floorsCompleted = 1 ∧
    (onFloorComplete (newRun RunType.timeBased none 0)
        catText 0 3 0 1000 1001 1002).isActive = false ∧
    (onFloorComplete (newRun RunType.timeBased none 0)
        catText 0 3 0 1000 1001 1002).endTime = some 1002 ∧
    (onFloorComplete (newRun RunType.timeBased none 0)
        catText 0 3 0 1000 1001 1002).floorsCompleted = 1 :=
  spec_C10_missing_target (newRun RunType.floorCount none 0)
    (newRun RunType.timeBased none 0) 5 5 rfl rfl rfl rfl (by norm_num [newRun])
    (newRun RunType.floorCount none 0) rfl rfl rfl
    (newRun RunType.timeBased none 0) rfl rfl rfl
    catText 3 0 0 1000 1002 1001 (by norm_num [newRun])

/-- C6 counterexample: the claim says the wpm word count is the number of
whitespace-delimited tokens for every floor text.  On the text with two
tokens separated by a double space, the code's split on a single space
yields 3 segments, so a one-minute floor gets wpm 3 while the claimed
token count is 2; the completed floor the run retains indeed carries 3. -/
theorem spec_C6_counterexample :
    wordCountJS ['a', ' ', ' ', 'b'] = 3 ∧
    tokenCount ['a', ' ', ' ', 'b'] = 2 ∧
    floorWpm ['a', ' ', ' ', 'b'] 60 = 3 ∧
    floorWpm ['a', ' ', ' ', 'b'] 60 ≠ (tokenCount ['a', ' ', ' ', 'b'] : ℚ) / (60 / 60) ∧
    ((foldFloor (newRun RunType.endless none 0) ['a', ' ', ' ', 'b'] 0 1 0 60000).floors.map
      CompletedFloor.wpm) = [3] := by
  have hw : wordCountJS ['a', ' ', ' ', 'b'] = 3 := by decide
  have ht : tokenCount ['a', ' ', ' ', 'b'] = 2 := by decide
  refine ⟨hw, ht, ?_, ?_, ?_⟩
  · norm_num [floorWpm, hw]
  · norm_num [floorWpm, hw, ht]
  · norm_num [foldFloor, newRun, floorWpm, hw]

/-- C6 amended: at floor completion wpm is wordCount/(duration/60) when
the duration in seconds (endTime minus startTime over 1000) is positive
and 0 otherwise, where wordCount is the length of the text split on
single spaces with empty segments kept, which equals the number of space
characters plus one; it coincides with the whitespace-token count only
for texts of nonempty words separated by single spaces. -/
theorem spec_C6_wpm_formula (run : Run) (text : List Char) (st now : ℚ)
    (c i : Nat) :
    ((foldFloor run text st c i now).floors.map CompletedFloor.wpm).getLast?
      = some (floorWpm text ((now - st) / 1000)) ∧
    floorWpm text ((now - st) / 1000) =
      (if 0 < (now - st) / 1000 then
        (wordCountJS text : ℚ) / (((now - st) / 1000) / 60)
      else 0) ∧
    wordCountJS text = text.count ' ' + 1 := by
  refine ⟨?_, rfl, wordCountJS_eq_count_space text⟩
  simp [foldFloor]

/-- C8: filtering the dictionary to word lengths in [10, 15] leaves it
empty (no COMMON_WORDS entry is longer than 9), yet the random-words
generator still returns a floor: with 3 words requested it produces the
two-space text of three empty words, with no rejection anywhere.  The
claim and the spec require a configuration error rejected synchronously,
which the code does not implement. -/
theorem spec_C8_empty_dictionary_floor :
    filteredWords 10 15 = [] ∧
    generateFloorRWText 3 10 15 false false (fun _ => 0) (fun _ => none)
      (fun _ => none) = "  " := by
  constructor
  · decide
  · decide

/-- C9 counterexample: duplicating the built-in Forgiving Mode twice goes
through createMode with no duplicate-name check, leaving two distinct
custom modes in the combined set whose names agree case-insensitively. -/
theorem spec_C9_counterexample :
    (duplicateMode ((duplicateMode ([] : List Mode) 10
        { id := 0, name := forgivingModeName, isDefault := true }).1) 11
        { id := 0, name := forgivingModeName, isDefault := true }).1 =
      [{ id := 10, name := forgivingModeName ++ copySuffix, isDefault := false },
       { id := 11, name := forgivingModeName ++ copySuffix, isDefault := false }] ∧
    ({ id := 10, name := forgivingModeName ++ copySuffix, isDefault := false } : Mode) ∈
      allModes [{ id := 10, name := forgivingModeName ++ copySuffix, isDefault := false },
        { id := 11, name := forgivingModeName ++ copySuffix, isDefault := false }] ∧
    ({ id := 11, name := forgivingModeName ++ copySuffix, isDefault := false } : Mode) ∈
      allModes [{ id := 10, name := forgivingModeName ++ copySuffix, isDefault := false },
        { id := 11, name := forgivingModeName ++ copySuffix, isDefault := false }] ∧
    ({ id := 10, name := forgivingModeName ++ copySuffix, isDefault := false } : Mode) ≠
      { id := 11, name := forgivingModeName ++ copySuffix, isDefault := false } ∧
    toLowerChars ({ id := 10, name := forgivingModeName ++ copySuffix, isDefault := false } : Mode).name =
      toLowerChars ({ id := 11, name := forgivingModeName ++ copySuffix, isDefault := false } : Mode).name := by
  refine ⟨by decide, by decide, by decide, by decide, rfl⟩

/-- C9 amended: both form-submit paths reject, as an early return rather
than a crash, a mode whose trimmed name duplicates, case-insensitively,
the name of any other mode in the combined set: the creation path checks
against every mode, the edit path against every mode except the one being
edited; the duplicate-mode path performs no such check. -/
theorem spec_C9_submit_rejects_duplicates (customModes : List Mode)
    (freshId : Nat) (name : List Char)
    (customs2 : List Mode) (editingId : Nat) (name2 : List Char)
    (h : isDuplicateName customModes none (trimChars name) = true)
    (h2 : isDuplicateName customs2 (some editingId) (trimChars name2) = true) :
    handleSubmitCreate customModes freshId name = none ∧
    handleSubmitEdit customs2 editingId name2 = none := by
  constructor
  · by_cases he : trimChars name = []
    · simp [handleSubmitCreate, he]
    · simp [handleSubmitCreate, he, h]
  · by_cases he : trimChars name2 = []
    · simp [handleSubmitEdit, he]
    · simp [handleSubmitEdit, he, h2]

/-- Witness for C9: creating a mode named forgiving mode, lowercase, is
rejected against the built-in Forgiving Mode, and editing the custom mode
with id 5 to that same name is likewise rejected, the duplicate being a
mode other than the one being edited. -/
theorem spec_C9_witness :
    handleSubmitCreate [] 5
      ['f', 'o', 'r', 'g', 'i', 'v', 'i', 'n', 'g', ' ', 'm', 'o', 'd', 'e'] = none ∧
    handleSubmitEdit [{ id := 5, name := ['M', 'y'], isDefault := false }] 5
      ['f', 'o', 'r', 'g', 'i', 'v', 'i', 'n', 'g', ' ', 'm', 'o', 'd', 'e'] = none :=
  spec_C9_submit_rejects_duplicates [] 5
    ['f', 'o', 'r', 'g', 'i', 'v', 'i', 'n', 'g', ' ', 'm', 'o', 'd', 'e']
    [{ id := 5, name := ['M', 'y'], isDefault := false }] 5
    ['f', 'o', 'r', 'g', 'i', 'v', 'i', 'n', 'g', ' ', 'm', 'o', 'd', 'e']
    (by decide) (by decide)

/-- In perfectionist mode a completion signal can only come from the
branch for a matching character with no active error, and only when the
typed text extended by the keystroke equals the floor text. -/
lemma perfectionist_complete_exact (text : List Char) (s : ProcState) (c : Char)
    (h : (handleKeyPress ErrorHandlingMode.perfectionist text s (Key.char c)).2 = true) :
    s.firstErrorPosition = none ∧ s.typedCharacters ++ [c] = text := by
  simp only [handleKeyPress] at h
  split at h
  · split at h
    · rename_i h1 h2
      exact ⟨h1.1, h2⟩
    · simp at h
  · simp at h

/-- C1: in perfectionist mode, once firstErrorPosition is locked to some
position every further printable keystroke signals no completion, leaves
firstErrorPosition unchanged, and increments incorrectCharacters but not
correctCharacters, whatever the key is; a completion can only be signalled
from a state with no active error whose typed text plus the keystroke
equals the floor text exactly. -/
theorem spec_C1_locked_error (text : List Char) (s : ProcState) (p : Nat) (c : Char)
    (s2 : ProcState) (c2 : Char)
    (h : s.firstErrorPosition = some p)
    (h2 : (handleKeyPress ErrorHandlingMode.perfectionist text s2 (Key.char c2)).2 = true) :
    (handleKeyPress ErrorHandlingMode.perfectionist text s (Key.char c)).2 = false ∧
    (handleKeyPress ErrorHandlingMode.perfectionist text s (Key.char c)).1.firstErrorPosition =
      some p ∧
    (handleKeyPress ErrorHandlingMode.perfectionist text s (Key.char c)).1.incorrectCharacters =
      s.incorrectCharacters + 1 ∧
    (handleKeyPress ErrorHandlingMode.perfectionist text s (Key.char c)).1.correctCharacters =
      s.correctCharacters ∧
    s2.firstErrorPosition = none ∧ s2.typedCharacters ++ [c2] = text := by
  obtain ⟨he2, ht2⟩ := perfectionist_complete_exact text s2 c2 h2
  refine ⟨?_, ?_, ?_, ?_, he2, ht2⟩ <;> simp [handleKeyPress, h]

/-- Witness for C1 on the cat text, from the post c, a, x state with the
error locked at position 2, pressing t; the completing state types t with
typed text c, a and no active error. -/
theorem spec_C1_witness :
    (handleKeyPress ErrorHandlingMode.perfectionist catText stateCAX (Key.char 't')).2 = false ∧
    (handleKeyPress ErrorHandlingMode.perfectionist catText stateCAX
      (Key.char 't')).1.firstErrorPosition = some 2 ∧
    (handleKeyPress ErrorHandlingMode.perfectionist catText stateCAX
      (Key.char 't')).1.incorrectCharacters = stateCAX.incorrectCharacters + 1 ∧
    (handleKeyPress ErrorHandlingMode.perfectionist catText stateCAX
      (Key.char 't')).1.correctCharacters = stateCAX.correctCharacters ∧
    (runKeys ErrorHandlingMode.perfectionist catText initProcState
      [Key.char 'c', Key.char 'a']).1.firstErrorPosition = none ∧
    (runKeys ErrorHandlingMode.perfectionist catText initProcState
      [Key.char 'c', Key.char 'a']).1.typedCharacters ++ ['t'] = catText :=
  spec_C1_locked_error catText stateCAX 2 't'
    (runKeys ErrorHandlingMode.perfectionist catText initProcState
      [Key.char 'c', Key.char 'a']).1 't' (by decide) (by decide)

/-- C4: in forgiving mode a keystroke matching the floor text at the
current position clears the error flag, increments correctCharacters,
signals completion exactly when the position was the last index and
advances the position otherwise; a mismatching keystroke sets the error
flag, increments incorrectCharacters and leaves the position unchanged.
On the cat text, typing c, a, t completes the floor; typing c, x leaves
the position at 1 with the error active; typing c, a, t from that state
completes it. -/
theorem spec_C4_forgiving (text : List Char) (s : ProcState) (c : Char)
    (s3 : ProcState) (c3 : Char)
    (hmatch : text.get? s.currentCharIndex = some c)
    (hmis : ¬ text.get? s3.currentCharIndex = some c3) :
    (handleKeyPress ErrorHandlingMode.forgiving text s (Key.char c)).1.hasError = false ∧
    (handleKeyPress ErrorHandlingMode.forgiving text s (Key.char c)).1.correctCharacters =
      s.correctCharacters + 1 ∧
    ((handleKeyPress ErrorHandlingMode.forgiving text s (Key.char c)).2 = true ↔
      s.currentCharIndex = text.length - 1) ∧
    ((handleKeyPress ErrorHandlingMode.forgiving text s (Key.char c)).2 = false →
      (handleKeyPress ErrorHandlingMode.forgiving text s (Key.char c)).1.currentCharIndex =
        s.currentCharIndex + 1) ∧
    (handleKeyPress ErrorHandlingMode.forgiving text s3 (Key.char c3)).1.hasError = true ∧
    (handleKeyPress ErrorHandlingMode.forgiving text s3 (Key.char c3)).1.incorrectCharacters =
      s3.incorrectCharacters + 1 ∧
    (handleKeyPress ErrorHandlingMode.forgiving text s3 (Key.char c3)).1.currentCharIndex =
      s3.currentCharIndex ∧
    (handleKeyPress ErrorHandlingMode.forgiving text s3 (Key.char c3)).2 = false ∧
    (runKeys ErrorHandlingMode.forgiving catText initProcState
      [Key.char 'c', Key.char 'a', Key.char 't']).2 = true ∧
    (runKeys ErrorHandlingMode.forgiving catText initProcState
      [Key.char 'c', Key.char 'x']).1.currentCharIndex = 1 ∧
    (runKeys ErrorHandlingMode.forgiving catText initProcState
      [Key.char 'c', Key.char 'x']).1.hasError = true ∧
    (runKeys ErrorHandlingMode.forgiving catText
      (runKeys ErrorHandlingMode.forgiving catText initProcState
        [Key.char 'c', Key.char 'x']).1
      [Key.char 'c', Key.char 'a', Key.char 't']).2 = true := by
  simp only [List.get?_eq_getElem?] at hmatch hmis
  by_cases hlast : s.currentCharIndex = text.length - 1
  · rw [hlast] at hmatch
    refine ⟨?_, ?_, ?_, ?_, ?_, ?_, ?_, ?_, by decide, by decide, by decide, by decide⟩ <;>
      simp [handleKeyPress, hmatch, hmis, hlast]
  · refine ⟨?_, ?_, ?_, ?_, ?_, ?_, ?_, ?_, by decide, by decide, by decide, by decide⟩ <;>
      simp [handleKeyPress, hmatch, hmis, hlast]

/-- Witness for C4 on the cat text: from the fresh state the key c
matches at position 0 and the key x mismatches. -/
theorem spec_C4_witness :
    (handleKeyPress ErrorHandlingMode.forgiving catText initProcState
      (Key.char 'c')).1.hasError = false ∧
    (handleKeyPress ErrorHandlingMode.forgiving catText initProcState
      (Key.char 'c')).1.correctCharacters = initProcState.correctCharacters + 1 ∧
    ((handleKeyPress ErrorHandlingMode.forgiving catText initProcState
      (Key.char 'c')).2 = true ↔ initProcState.currentCharIndex = catText.length - 1) ∧
    ((handleKeyPress ErrorHandlingMode.forgiving catText initProcState
      (Key.char 'c')).2 = false →
      (handleKeyPress ErrorHandlingMode.forgiving catText initProcState
        (Key.char 'c')).1.currentCharIndex = initProcState.currentCharIndex + 1) ∧
    (handleKeyPress ErrorHandlingMode.forgiving catText initProcState
      (Key.char 'x')).1.hasError = true ∧
    (handleKeyPress ErrorHandlingMode.forgiving catText initProcState
      (Key.char 'x')).1.incorrectCharacters = initProcState.incorrectCharacters + 1 ∧
    (handleKeyPress ErrorHandlingMode.forgiving catText initProcState
      (Key.char 'x')).1.currentCharIndex = initProcState.currentCharIndex ∧
    (handleKeyPress ErrorHandlingMode.forgiving catText initProcState
      (Key.char 'x')).2 = false ∧
    (runKeys ErrorHandlingMode.forgiving catText initProcState
      [Key.char 'c', Key.char 'a', Key.char 't']).2 = true ∧
    (runKeys ErrorHandlingMode.forgiving catText initProcState
      [Key.char 'c', Key.char 'x']).1.currentCharIndex = 1 ∧
    (runKeys ErrorHandlingMode.forgiving catText initProcState
      [Key.char 'c', Key.char 'x']).1.hasError = true ∧
    (runKeys ErrorHandlingMode.forgiving catText
      (runKeys ErrorHandlingMode.forgiving catText initProcState
        [Key.char 'c', Key.char 'x']).1
      [Key.char 'c', Key.char 'a', Key.char 't']).2 = true :=
  spec_C4_forgiving catText initProcState 'c' initProcState 'x' (by decide) (by decide)

/-- C5 counterexample: on the cat text, after typing c, a, x the locked
error position is 2, but two Backspaces followed by t leave typedText as
c, t, not c, a as the claim states: the first Backspace already clears
the error at length 2, the second deletes the a, and the t is then
compared against position 1 and appended. -/
theorem spec_C5_counterexample :
    stateCAX.firstErrorPosition = some 2 ∧
    (runKeys ErrorHandlingMode.perfectionist catText initProcState
      [Key.char 'c', Key.char 'a', Key.char 'x', Key.backspace, Key.backspace,
       Key.char 't']).1.typedCharacters ≠ ['c', 'a'] := by
  exact ⟨by decide, by decide⟩

/-- C5 amended: Backspace on a nonempty typedText drops its last
character and sets the position to the new length, clearing the locked
error position and the error flag exactly when the new length is at most
that position, and never signalling completion; on an empty typedText it
is a no-op.  On the cat text, typing c, a, x locks the error at 2; the
first Backspace both shortens typedText to c, a and clears the error, so
two Backspaces leave typedText c, after which t mismatches and yields
typedText c, t with a new error at 1 and no completion, while a single
Backspace followed by t yields typedText cat and completes the floor. -/
theorem spec_C5_backspace (text : List Char) (s : ProcState) (p : Nat)
    (s0 : ProcState)
    (hne : s.typedCharacters ≠ [])
    (hp : s.firstErrorPosition = some p)
    (h0 : s0.typedCharacters = []) :
    (handleKeyPress ErrorHandlingMode.perfectionist text s Key.backspace).1.typedCharacters =
      s.typedCharacters.dropLast ∧
    (handleKeyPress ErrorHandlingMode.perfectionist text s Key.backspace).1.currentCharIndex =
      s.typedCharacters.dropLast.length ∧
    (s.typedCharacters.dropLast.length ≤ p →
      (handleKeyPress ErrorHandlingMode.perfectionist text s
        Key.backspace).1.firstErrorPosition = none ∧
      (handleKeyPress ErrorHandlingMode.perfectionist text s Key.backspace).1.hasError = false) ∧
    (¬ s.typedCharacters.dropLast.length ≤ p →
      (handleKeyPress ErrorHandlingMode.perfectionist text s
        Key.backspace).1.firstErrorPosition = some p ∧
      (handleKeyPress ErrorHandlingMode.perfectionist text s Key.backspace).1.hasError =
        s.hasError) ∧
    (handleKeyPress ErrorHandlingMode.perfectionist text s Key.backspace).2 = false ∧
    handleKeyPress ErrorHandlingMode.perfectionist text s0 Key.backspace = (s0, false) ∧
    stateCAX.firstErrorPosition = some 2 ∧
    (runKeys ErrorHandlingMode.perfectionist catText stateCAX
      [Key.backspace]).1.typedCharacters = ['c', 'a'] ∧
    (runKeys ErrorHandlingMode.perfectionist catText stateCAX
      [Key.backspace]).1.firstErrorPosition = none ∧
    (runKeys ErrorHandlingMode.perfectionist catText stateCAX
      [Key.backspace, Key.backspace]).1.typedCharacters = ['c'] ∧
    (runKeys ErrorHandlingMode.perfectionist catText stateCAX
      [Key.backspace, Key.backspace, Key.char 't']).1.typedCharacters = ['c', 't'] ∧
    (runKeys ErrorHandlingMode.perfectionist catText stateCAX
      [Key.backspace, Key.backspace, Key.char 't']).1.firstErrorPosition = some 1 ∧
    (runKeys ErrorHandlingMode.perfectionist catText stateCAX
      [Key.backspace, Key.backspace, Key.char 't']).2 = false ∧
    (runKeys ErrorHandlingMode.perfectionist catText stateCAX
      [Key.backspace, Key.char 't']).1.typedCharacters = catText ∧
    (runKeys ErrorHandlingMode.perfectionist catText stateCAX
      [Key.backspace, Key.char 't']).2 = true := by
  have hlen : 0 < s.typedCharacters.length := List.length_pos.mpr hne
  by_cases hle : s.typedCharacters.dropLast.length ≤ p
  · have hle2 : s.typedCharacters.length ≤ p + 1 := by
      rw [List.length_dropLast] at hle
      omega
    refine ⟨?_, ?_, ?_, ?_, ?_, ?_, by decide, by decide, by decide, by decide,
      by decide, by decide, by decide, by decide, by decide⟩ <;>
      simp [handleKeyPress, hp, hlen, hle, hle2, h0]
  · have hle2 : ¬ s.typedCharacters.length ≤ p + 1 := by
      rw [List.length_dropLast] at hle
      omega
    refine ⟨?_, ?_, ?_, ?_, ?_, ?_, by decide, by decide, by decide, by decide,
      by decide, by decide, by decide, by decide, by decide⟩ <;>
      simp [handleKeyPress, hp, hlen, hle, hle2, h0]

/-- Witness for C5 at the post c, a, x state, with the fresh state as the
empty-typedText case. -/
theorem spec_C5_witness :
    (handleKeyPress ErrorHandlingMode.perfectionist catText stateCAX
      Key.backspace).1.typedCharacters = stateCAX.typedCharacters.dropLast ∧
    (handleKeyPress ErrorHandlingMode.perfectionist catText stateCAX
      Key.backspace).1.currentCharIndex = stateCAX.typedCharacters.dropLast.length ∧
    (stateCAX.typedCharacters.dropLast.length ≤ 2 →
      (handleKeyPress ErrorHandlingMode.perfectionist catText stateCAX
        Key.backspace).1.firstErrorPosition = none ∧
      (handleKeyPress ErrorHandlingMode.perfectionist catText stateCAX
        Key.backspace).1.hasError = false) ∧
    (¬ stateCAX.typedCharacters.dropLast.length ≤ 2 →
      (handleKeyPress ErrorHandlingMode.perfectionist catText stateCAX
        Key.backspace).1.firstErrorPosition = some 2 ∧
      (handleKeyPress ErrorHandlingMode.perfectionist catText stateCAX
        Key.backspace).1.hasError = stateCAX.hasError) ∧
    (handleKeyPress ErrorHandlingMode.perfectionist catText stateCAX Key.backspace).2 = false ∧
    handleKeyPress ErrorHandlingMode.perfectionist catText initProcState Key.backspace =
      (initProcState, false) ∧
    stateCAX.firstErrorPosition = some 2 ∧
    (runKeys ErrorHandlingMode.perfectionist catText stateCAX
      [Key.backspace]).1.typedCharacters = ['c', 'a'] ∧
    (runKeys ErrorHandlingMode.perfectionist catText stateCAX
      [Key.backspace]).1.firstErrorPosition = none ∧
    (runKeys ErrorHandlingMode.perfectionist catText stateCAX
      [Key.backspace, Key.backspace]).1.typedCharacters = ['c'] ∧
    (runKeys ErrorHandlingMode.perfectionist catText stateCAX
      [Key.backspace, Key.backspace, Key.char 't']).1.typedCharacters = ['c', 't'] ∧
    (runKeys ErrorHandlingMode.perfectionist catText stateCAX
      [Key.backspace, Key.backspace, Key.char 't']).1.firstErrorPosition = some 1 ∧
    (runKeys ErrorHandlingMode.perfectionist catText stateCAX
      [Key.backspace, Key.backspace, Key.char 't']).2 = false ∧
    (runKeys ErrorHandlingMode.perfectionist catText stateCAX
      [Key.backspace, Key.char 't']).1.typedCharacters = catText ∧
    (runKeys ErrorHandlingMode.perfectionist catText stateCAX
      [Key.backspace, Key.char 't']).2 = true :=
  spec_C5_backspace catText stateCAX 2 initProcState (by decide) (by decide) rfl

end KeyStar
